import Mathlib

/-!
# OpenKeyFlow — verification of the trigger engine and the profile/config store

A shallow embedding, in Lean 4, of the parts of the OpenKeyFlow sources that
the specification's claims are about:

* `src/backend/trigger_engine.py` — the `TriggerEngine` state machine
  (`_handle_event`, `_find_match_locked`, `_fire_locked`, `update_hotkeys`,
  `set_enabled`, `toggle_enabled`, `__init__`) together with its key
  translation tables;
* `src/backend/storage.py` — `load_config` / `save_config` and
  `load_profiles` / `save_profiles` / `_encrypt_payload` / `_decrypt_payload`.

Conventions of the embedding:

* Python strings that the engine manipulates character-wise (the typed buffer,
  trigger keys) are `List Char`; key *names* coming from the hook backend stay
  `String`.
* Python dicts are insertion-ordered association lists (`List (key × value)`);
  dict membership is `lookup`-is-some, `dict.update` / `setdefault` are
  embedded as `dictUpdate` / `dictSetdefault` below.
* `time.time()` values and the float knobs (`cooldown`, `paste_delay`) are
  modelled as integers (clock ticks); the engine only subtracts, compares
  and clamps them, so only their ordered additive structure matters.
* Fallible Python code (raising) is embedded with `Except`.
* Cryptography (`PBKDF2HMAC`, `AESGCM`), base64 and the byte-level JSON
  codec from the Python standard library are external to the repository and
  are abstracted as a record of primitive functions (`StoragePrims`); the
  properties a theorem needs from them (e.g. that decryption inverts
  encryption) appear as explicit hypotheses.
-/

/-- Python's slice `s[-n:]` for a *nonnegative* `n`. Note the `-0` pitfall:
`s[-0:]` is `s[0:]`, the whole string, not the empty string. -/
def pySliceLast (n : Nat) (l : List Char) : List Char :=
  if n = 0 then l else l.drop (l.length - n)

/-- `trigger_engine.SHIFT_KEYS`. -/
def SHIFT_KEYS : List String := ["shift", "left shift", "right shift"]

/-- `trigger_engine.WHITESPACE`. -/
def WHITESPACE : List Char := [' ', '\n', '\t']

/-- `trigger_engine.SPECIAL_KEYS`. -/
def SPECIAL_KEYS : List (String × Char) := [("space", ' '), ("enter", '\n'), ("tab", '\t')]

/-- `trigger_engine.SHIFTED_SYMBOLS`. -/
def SHIFTED_SYMBOLS : List (Char × Char) :=
  [('1', '!'), ('2', '@'), ('3', '#'), ('4', '$'), ('5', '%'), ('6', '^'),
   ('7', '&'), ('8', '*'), ('9', '('), ('0', ')'), ('-', '_'), ('=', '+'),
   ('[', '\x7b'), (']', '\x7d'), (';', ':'), ('\'', '"'), (',', '<'),
   ('.', '>'), ('/', '?'), ('\\', '|'), ('`', '~')]

/-- Python's `str.lower()` as applied to backend key names in
`_handle_event` (`(event.name or "").lower()`); backend names are ASCII, so
the per-character ASCII lowering is the exact behaviour. Embedded on the
underlying character list so that it evaluates by kernel reduction. -/
def pyLower (s : String) : String :=
  { data := s.data.map Char.toLower }

/-- Key event type as delivered by the hook backend (`event.event_type`);
anything that is neither `down` nor `up` is discarded by the handler. -/
inductive EvType where
  | down
  | up
  | other
deriving DecidableEq, Repr

/-- A key event as seen by `TriggerEngine._handle_event`. `name` embeds
Python's `event.name or ""` (so a missing name is `""`); `time` is the value
`time.time()` would return while this event is being handled. -/
structure KEvent where
  etype : EvType
  name : String
  time : ℤ
deriving DecidableEq, Repr

/-- The mutable state of a `TriggerEngine` (the fields of `__init__` that the
claims depend on). `backendPresent` embeds `self._backend is not None`. -/
structure EngineState where
  hotkeys : List (List Char × List Char)
  sortedTriggers : List (List Char × List Char)
  buffer : List Char
  maxLen : Nat
  enabled : Bool
  cooldown : ℤ
  pasteDelay : ℤ
  lastFire : ℤ
  suppressEvents : Bool
  shiftActive : Bool
  capsLock : Bool
  firedCount : Nat
  backendPresent : Bool
deriving DecidableEq, Repr

/-- `TriggerEngine._translate_key` (the table in §4.4 of the spec): `name` is
the backend key name; a single letter honours `shift XOR caps`, a single
non-letter maps through `SHIFTED_SYMBOLS` when shift is held, and multi-char
names map through `SPECIAL_KEYS` (`none` = ignore the event). Python's
`str.isalpha`/`upper`/`lower` are embedded with their ASCII behaviour, which
is what backend key names use. -/
def translate_key (shiftActive capsLock : Bool) (name : String) : Option Char :=
  match name.toList with
  | [c] =>
    if c.isAlpha then
      some (if xor shiftActive capsLock then c.toUpper else c.toLower)
    else if shiftActive then
      match SHIFTED_SYMBOLS.lookup c with
      | some g => some g
      | none => some c
    else
      some c
  | _ => SPECIAL_KEYS.lookup name

/-- One step of the stable sort used for `update_hotkeys`: insert `p` after
every element whose trigger is at least as long (so later-inserted items of
equal length stay behind earlier ones, as in Python's stable `sorted`). -/
def insertByLen (p : List Char × List Char) :
    List (List Char × List Char) → List (List Char × List Char)
  | [] => [p]
  | q :: t => if q.1.length < p.1.length then p :: q :: t else q :: insertByLen p t

/-- The sort in `update_hotkeys`: Python's stable `sorted(items,
key=len(trigger), reverse=True)` — elements taken in dict order, each placed
behind all already-placed elements of at-least-equal trigger length. -/
def sortTriggers (l : List (List Char × List Char)) : List (List Char × List Char) :=
  l.foldl (fun acc p => insertByLen p acc) []

/-- `max((len(trigger) for trigger in hotkeys), default=0)`. -/
def maxTriggerLen (hotkeys : List (List Char × List Char)) : Nat :=
  hotkeys.foldr (fun p acc => max p.1.length acc) 0

/-- `TriggerEngine.update_hotkeys` (spec: `update_triggers`): replace the
trigger dict, recompute the sorted list and `max_len`, and truncate the
buffer with `self._buffer[-self._max_len:]` when it is too long. -/
def update_hotkeys (s : EngineState) (hotkeys : List (List Char × List Char)) : EngineState :=
  let sorted := sortTriggers hotkeys
  let maxLen := maxTriggerLen hotkeys
  let buffer := if maxLen < s.buffer.length then pySliceLast maxLen s.buffer else s.buffer
  { s with hotkeys := hotkeys, sortedTriggers := sorted, maxLen := maxLen, buffer := buffer }

/-- `TriggerEngine.__init__` with a working hook backend: all runtime fields
at their initial values, `caps_lock` seeded from `backend.is_toggled`, then a
call to `update_hotkeys`. -/
def mkEngine (hotkeys : List (List Char × List Char)) (cooldown pasteDelay : ℤ)
    (capsSeed : Bool) : EngineState :=
  update_hotkeys
    { hotkeys := hotkeys, sortedTriggers := [], buffer := [], maxLen := 0,
      enabled := true, cooldown := cooldown, pasteDelay := pasteDelay,
      lastFire := 0, suppressEvents := false, shiftActive := false,
      capsLock := capsSeed, firedCount := 0, backendPresent := true }
    hotkeys

/-- `TriggerEngine.set_enabled`: disabling clears the buffer. -/
def set_enabled (s : EngineState) (enabled : Bool) : EngineState :=
  { s with enabled := enabled, buffer := if enabled then s.buffer else [] }

/-- `TriggerEngine.toggle_enabled`. -/
def toggle_enabled (s : EngineState) : EngineState :=
  set_enabled s (!s.enabled)

/-- `TriggerEngine.set_cooldown`: clamped to `≥ 0`. -/
def set_cooldown (s : EngineState) (cooldown : ℤ) : EngineState :=
  { s with cooldown := max 0 cooldown }

/-- The predicate of `_find_match_locked`'s loop:
`if trigger and self._buffer.endswith(trigger)`. -/
def matchPred (buffer : List Char) (p : List Char × List Char) : Bool :=
  !p.1.isEmpty && p.1.isSuffixOf buffer

/-- `TriggerEngine._find_match_locked`: walk the sorted trigger list and
return the first (trigger, output) whose trigger is non-empty and a suffix of
the buffer. -/
def find_match (sorted : List (List Char × List Char)) (buffer : List Char) :
    Option (List Char × List Char) :=
  sorted.find? (matchPred buffer)

/-- What the engine synthesizes during one fire: how many `backspace` chords
were sent, and the text handed to `safe_write` (paste-or-type), if any. -/
structure FireEffect where
  backspaces : Nat
  wrote : Option (List Char)
deriving DecidableEq, Repr

/-- The no-emission effect. -/
def FireEffect.none : FireEffect := { backspaces := 0, wrote := Option.none }

/-- `TriggerEngine._fire_locked`: with a backend, send `len(trigger)`
backspace chords, `safe_write` the output, clear the buffer, bump the counter
and report the fired pair; with no backend the loop breaks immediately and
`None` is reported. `_suppress_events` is set on entry and cleared in the
`finally`, so it is restored in the returned state. -/
def fire_locked (s : EngineState) (trigger output : List Char) :
    EngineState × Option (List Char × List Char) × FireEffect :=
  if s.backendPresent then
    ({ s with buffer := [], firedCount := s.firedCount + 1 },
     some (trigger, output),
     { backspaces := trigger.length, wrote := some output })
  else
    (s, none, FireEffect.none)

/-- `TriggerEngine._handle_event`, one event processed sequentially (events
are delivered in order on the backend's hook thread). Returns the next state,
the pair passed to `fire_callback` (if any), and the synthesized output. -/
def handle_event (s : EngineState) (ev : KEvent) : EngineState × Option (List Char × List Char) × FireEffect :=
  if ¬(ev.etype = EvType.down ∨ ev.etype = EvType.up) then (s, none, FireEffect.none)
  else if pyLower ev.name ∈ SHIFT_KEYS then
    ({ s with shiftActive := ev.etype = EvType.down }, none, FireEffect.none)
  else if pyLower ev.name = "caps lock" ∧ ev.etype = EvType.down then
    ({ s with capsLock := !s.capsLock }, none, FireEffect.none)
  else if ev.etype ≠ EvType.down then (s, none, FireEffect.none)
  else if ¬s.enabled ∨ s.suppressEvents ∨ s.sortedTriggers.isEmpty then
    if pyLower ev.name = "backspace" then
      ({ s with buffer := s.buffer.dropLast }, none, FireEffect.none)
    else (s, none, FireEffect.none)
  else if pyLower ev.name = "backspace" then
    ({ s with buffer := s.buffer.dropLast }, none, FireEffect.none)
  else
    match translate_key s.shiftActive s.capsLock (pyLower ev.name) with
    | none => (s, none, FireEffect.none)
    | some c =>
      if c ∈ WHITESPACE then ({ s with buffer := [] }, none, FireEffect.none)
      else
        match find_match s.sortedTriggers (pySliceLast s.maxLen (s.buffer ++ [c])) with
        | none =>
          ({ s with buffer := pySliceLast s.maxLen (s.buffer ++ [c]) }, none, FireEffect.none)
        | some (trigger, output) =>
          if ev.time - s.lastFire < s.cooldown then
            ({ s with buffer := pySliceLast s.maxLen (s.buffer ++ [c]) }, none, FireEffect.none)
          else
            fire_locked
              { s with buffer := pySliceLast s.maxLen (s.buffer ++ [c]), lastFire := ev.time }
              trigger output

/-- Process a list of events in order, keeping only the final state. -/
def runEvents (s : EngineState) (es : List KEvent) : EngineState :=
  es.foldl (fun acc e => (handle_event acc e).1) s

/-- The times of the events on which the engine fired, in processing order. -/
def fireTimes (s : EngineState) : List KEvent → List ℤ
  | [] => []
  | e :: es =>
    let r := handle_event s e
    (if (r.2.1).isSome then [e.time] else []) ++ fireTimes r.1 es

/-- Total number of backspace chords synthesized while processing a list of
events. -/
def totalBackspaces (s : EngineState) : List KEvent → Nat
  | [] => 0
  | e :: es =>
    let r := handle_event s e
    r.2.2.backspaces + totalBackspaces r.1 es

/-- All texts handed to `safe_write` while processing a list of events, in
order. -/
def writtenTexts (s : EngineState) : List KEvent → List (List Char)
  | [] => []
  | e :: es =>
    let r := handle_event s e
    (r.2.2.wrote).toList ++ writtenTexts r.1 es

/-! ## Profile and config store (`src/backend/storage.py`) -/

/-- A parsed JSON value (keys of objects are strings; Python's `json`
distinguishes ints from floats, and a float literal is kept here as the
fraction it denotes). -/
inductive JValue where
  | jnull
  | jbool (b : Bool)
  | jint (n : ℤ)
  | jfloat (num den : ℤ)
  | jstr (s : String)
  | jarr (elems : List JValue)
  | jobj (fields : List (String × JValue))

/-- Python `str()` of a parsed-JSON value, as used on the `salt` / `nonce` /
`data` fields and on trigger outputs. The scalar arms are exact; the
container arms stand in for Python's container repr, whose exact text feeds
only the abstract base64 decoder and so is never load-bearing. -/
def pyStr : JValue → String
  | .jnull => "None"
  | .jbool b => if b then "True" else "False"
  | .jint n => toString n
  | .jfloat num den => toString num ++ "e" ++ toString den
  | .jstr s => s
  | .jarr _ => "<list>"
  | .jobj _ => "<dict>"

/-- Python `==` between a parsed-JSON value and an int (note `True == 1` and
`False == 0` hold in Python), used by the version check of
`_decrypt_payload`. -/
def pyEqInt (v : JValue) (n : ℤ) : Bool :=
  match v with
  | .jint m => m == n
  | .jbool b => (if b then (1 : ℤ) else 0) == n
  | .jfloat num den => den != 0 && num == n * den
  | _ => false

/-- The exceptions `storage.py` can raise on the paths the claims cover. -/
inductive PyErr where
  | jsonDecodeError
  | attributeError
  | unicodeDecodeError
  | profilesEncryptionError (msg : String)
deriving DecidableEq, Repr

/-- An on-disk JSON file as a loader sees it: absent, present but not valid
JSON (`json.load` raises `JSONDecodeError`), or parsed to a value. -/
inductive PyFile where
  | missing
  | invalid
  | parsed (v : JValue)

/-- Python `dict.update`: values of existing keys are replaced in place,
new keys are appended in their own order. -/
def dictUpdate {β : Type} (base upd : List (String × β)) : List (String × β) :=
  base.map (fun p => (p.1, (upd.lookup p.1).getD p.2)) ++
    upd.filter (fun p => (base.lookup p.1).isNone)

/-- Python `dict.setdefault`. -/
def dictSetdefault {β : Type} (d : List (String × β)) (k : String) (v : β) :
    List (String × β) :=
  if (d.lookup k).isSome then d else d ++ [(k, v)]

/-- `storage.DEFAULT_LOG_FILE` (a platform-dependent path; its text is
irrelevant to the claims). -/
def DEFAULT_LOG_FILE : String := "openkeyflow.log"

/-- `storage.DEFAULT_CONFIG`. -/
def DEFAULT_CONFIG : List (String × JValue) :=
  [("dark_mode", .jbool false),
   ("cooldown", .jfloat 3 10),
   ("paste_delay", .jfloat 1 20),
   ("accepted_use_policy", .jbool false),
   ("quick_add_hotkey", .jstr "ctrl+f10"),
   ("hotkey_modifier", .jstr "ctrl"),
   ("quick_add_key", .jstr "f10"),
   ("profile_switch_key", .jstr "f11"),
   ("toggle_hotkey_key", .jstr "f12"),
   ("logging_enabled", .jbool false),
   ("log_file", .jstr DEFAULT_LOG_FILE),
   ("profile_colors", .jobj []),
   ("profiles_encrypted", .jbool false),
   ("profile_recovery_code", .jnull)]

/-- `storage.load_config`. `ensure_data_dir()` first materializes a missing
config file with the defaults; then the file is read with a bare
`json.load` (no exception handling), the recognized keys are merged over the
defaults with `data.get(k, v)`, and `setdefault("log_file", ...)` runs (a
no-op, as `log_file` is a default key). Returns the resulting file state and
either the merged config or the exception that propagates. -/
def load_config (file : PyFile) : PyFile × Except PyErr (List (String × JValue)) :=
  let file : PyFile := match file with
    | .missing => .parsed (.jobj DEFAULT_CONFIG)
    | f => f
  match file with
  | .missing => (file, .ok DEFAULT_CONFIG)
  | .invalid => (file, .error .jsonDecodeError)
  | .parsed v =>
    match v with
    | .jobj data =>
      let merged := dictUpdate DEFAULT_CONFIG
        (DEFAULT_CONFIG.map (fun p => (p.1, (data.lookup p.1).getD p.2)))
      let merged := dictSetdefault merged "log_file" (.jstr DEFAULT_LOG_FILE)
      (file, .ok merged)
    | _ => (file, .error .attributeError)

/-- `storage.save_config`: merge the given config over the defaults and
atomically rewrite the file. -/
def save_config (config : List (String × JValue)) : PyFile :=
  .parsed (.jobj (dictUpdate DEFAULT_CONFIG config))

/-- The primitives `storage.py` imports from outside the repository
(`cryptography`'s PBKDF2 + AES-GCM, and the standard library's base64,
UTF-8 and JSON codecs), abstracted as functions. `aeadDecrypt` returns
`none` for an `InvalidTag`, `utf8Decode` returns `none` for a
`UnicodeDecodeError`, `jsonLoads` returns `none` for a `JSONDecodeError`,
and `b64decode` returns `none` for a `ValueError`/`TypeError`. -/
structure StoragePrims where
  deriveKey : String → List Nat → List Nat
  aeadEncrypt : List Nat → List Nat → List Nat → List Nat
  aeadDecrypt : List Nat → List Nat → List Nat → Option (List Nat)
  b64encode : List Nat → String
  b64decode : String → Option (List Nat)
  jsonDumps : JValue → String
  utf8Encode : String → List Nat
  utf8Decode : List Nat → Option String
  jsonLoads : String → Option JValue

/-- Python truthiness of the optional passphrase (`if passphrase:` /
`if not passphrase:`) — `None` and `""` are falsy. -/
def passTruthy : Option String → Bool
  | none => false
  | some s => !s.isEmpty

/-- `storage._encrypt_payload` with the freshly drawn `salt` and `nonce`
made explicit parameters. -/
def encrypt_payload (pr : StoragePrims) (salt nonce : List Nat) (payload : JValue)
    (passphrase : String) : JValue :=
  let key := pr.deriveKey passphrase salt
  let plaintext := pr.utf8Encode (pr.jsonDumps payload)
  let ciphertext := pr.aeadEncrypt key nonce plaintext
  .jobj [("encrypted", .jbool true), ("version", .jint 1),
         ("salt", .jstr (pr.b64encode salt)),
         ("nonce", .jstr (pr.b64encode nonce)),
         ("data", .jstr (pr.b64encode ciphertext))]

/-- One field access `_decode_bytes(str(payload[k]))` of `_decrypt_payload`:
a missing key raises `KeyError`, a failed base64 decode raises
`ValueError`/`TypeError`; both are mapped to `ProfilesEncryptionError`. -/
def getBytesField (pr : StoragePrims) (payload : List (String × JValue)) (k : String) :
    Except PyErr (List Nat) :=
  match payload.lookup k with
  | none => .error (.profilesEncryptionError "Encrypted profiles are missing required fields.")
  | some v =>
    match pr.b64decode (pyStr v) with
    | none => .error (.profilesEncryptionError "Encrypted profiles contain invalid data.")
    | some bs => .ok bs

/-- `storage._decrypt_payload`. Note the final line
`json.loads(plaintext.decode("utf-8"))`: only `JSONDecodeError` is caught
there, so a plaintext that is not valid UTF-8 propagates a
`UnicodeDecodeError` rather than a `ProfilesEncryptionError`. -/
def decrypt_payload (pr : StoragePrims) (payload : List (String × JValue))
    (passphrase : String) : Except PyErr JValue :=
  if !(match payload.lookup "version" with | some v => pyEqInt v 1 | none => false) then
    .error (.profilesEncryptionError "Unsupported encrypted profiles version.")
  else
    match getBytesField pr payload "salt" with
    | .error e => .error e
    | .ok salt =>
      match getBytesField pr payload "nonce" with
      | .error e => .error e
      | .ok nonce =>
        match getBytesField pr payload "data" with
        | .error e => .error e
        | .ok data =>
          match pr.aeadDecrypt (pr.deriveKey passphrase salt) nonce data with
          | none => .error (.profilesEncryptionError "Invalid passphrase or corrupted profiles data.")
          | some plaintext =>
            match pr.utf8Decode plaintext with
            | none => .error .unicodeDecodeError
            | some text =>
              match pr.jsonLoads text with
              | none => .error (.profilesEncryptionError "Decrypted profiles are invalid JSON.")
              | some v => .ok v

/-- `storage.DEFAULT_PROFILE_NAME`. -/
def DEFAULT_PROFILE_NAME : String := "main"

/-- `storage._default_profiles()` as the JSON value `ensure_data_dir`
writes for a missing profiles file (with an empty legacy hotkeys file, as on
a fresh installation). -/
def default_profiles : JValue :=
  .jobj [("current_profile", .jstr DEFAULT_PROFILE_NAME),
         ("profiles", .jobj [(DEFAULT_PROFILE_NAME, .jobj [])])]

/-- The JSON payload `save_profiles` writes:
`{"current_profile": ..., "profiles": {...}}`. -/
def profilesToJson (current : String)
    (profiles : List (String × List (String × String))) : JValue :=
  .jobj [("current_profile", .jstr current),
         ("profiles", .jobj (profiles.map (fun p =>
           (p.1, JValue.jobj (p.2.map (fun q => (q.1, JValue.jstr q.2)))))))]

/-- `storage.save_profiles` with the salt/nonce for a possible encryption
made explicit: encrypt exactly when the passphrase is truthy, then
atomically replace the profiles file. -/
def save_profiles (pr : StoragePrims) (salt nonce : List Nat) (current : String)
    (profiles : List (String × List (String × String)))
    (passphrase : Option String) : PyFile :=
  let payload := profilesToJson current profiles
  if passTruthy passphrase then
    .parsed (encrypt_payload pr salt nonce payload (passphrase.getD ""))
  else
    .parsed payload

/-- The sanitation loop of `load_profiles`: keep entries whose value is a
dict and coerce the inner values with `str` (parsed-JSON keys are already
strings, so `isinstance(name, str)` always holds and `str(k)` is the
identity). -/
def sanitizeProfiles (raw : List (String × JValue)) :
    List (String × List (String × String)) :=
  raw.filterMap (fun p =>
    match p.2 with
    | .jobj hk => some (p.1, hk.map (fun q => (q.1, pyStr q.2)))
    | _ => none)

/-- The encrypted marker of `load_profiles` / `profiles_are_encrypted`:
`isinstance(raw, dict) and raw.get("encrypted") is True` (`is True` holds
only for the boolean `True` itself). -/
def markedEncrypted : JValue → Bool
  | .jobj d =>
    match d.lookup "encrypted" with
    | some (.jbool true) => true
    | _ => false
  | _ => false

/-- `data.get("profiles") if isinstance(data, dict) else {}`, coerced to
`{}` when not a dict. -/
def profilesRawOf : JValue → List (String × JValue)
  | .jobj d =>
    match d.lookup "profiles" with
    | some (.jobj p) => p
    | _ => []
  | _ => []

/-- The default-profile repair of `load_profiles`: re-create `"main"` when
it is absent. -/
def mainFix (profiles : List (String × List (String × String))) :
    List (String × List (String × String)) :=
  if (profiles.lookup DEFAULT_PROFILE_NAME).isSome then profiles
  else profiles ++ [(DEFAULT_PROFILE_NAME, [])]

/-- The pointer repair of `load_profiles`: keep `current` exactly when it
names a resident profile, else reset it to the default. -/
def currentFix (c : String) (profiles : List (String × List (String × String))) : String :=
  if (profiles.lookup c).isSome then c else DEFAULT_PROFILE_NAME

/-- `data.get("current_profile")` with the `isinstance(..., str)` check and
the pointer repair. -/
def currentFixOf (data : JValue) (profiles : List (String × List (String × String))) : String :=
  match data with
  | .jobj d =>
    match d.lookup "current_profile" with
    | some (.jstr c) => currentFix c profiles
    | _ => DEFAULT_PROFILE_NAME
  | _ => DEFAULT_PROFILE_NAME

/-- `storage.load_profiles`. A missing file is materialized with the
defaults; unreadable JSON degrades to `{}`; the encrypted marker is
`raw.get("encrypted") is True`; decryption failures propagate; the loaded
profiles are sanitized, the default profile is re-created when absent, a
dangling current-profile pointer is reset, and the repaired store is written
back (encrypted again exactly when the file was encrypted). Returns the new
file state and the `(current_profile, profiles)` pair or the exception. -/
def load_profiles (pr : StoragePrims) (salt nonce : List Nat)
    (passphrase : Option String) (file : PyFile) :
    PyFile × Except PyErr (String × List (String × List (String × String))) :=
  let file : PyFile := match file with
    | .missing => .parsed default_profiles
    | f => f
  let data : JValue := match file with
    | .parsed v => v
    | _ => .jobj []
  let decrypted : Except PyErr JValue :=
    if markedEncrypted data then
      if ¬ passTruthy passphrase then
        .error (.profilesEncryptionError "Profiles are encrypted and require a passphrase.")
      else
        match data with
        | .jobj d => decrypt_payload pr d (passphrase.getD "")
        | _ => .ok data
    else .ok data
  match decrypted with
  | .error e => (file, .error e)
  | .ok data2 =>
    let profiles := mainFix (sanitizeProfiles (profilesRawOf data2))
    let current : String := currentFixOf data2 profiles
    (save_profiles pr salt nonce current profiles
      (if markedEncrypted data then passphrase else none),
     .ok (current, profiles))

/-- Whether a loader result is a raised `ProfilesEncryptionError`. -/
def isPEE {α : Type} : Except PyErr α → Bool
  | .error (.profilesEncryptionError _) => true
  | _ => false

/-! ## Claims -/

/-- A key-down event at a given time. -/
def downEvent (name : String) (time : ℤ) : KEvent :=
  { etype := .down, name := name, time := time }

/-- The engine state reached by constructing the engine with triggers
`{"ab": "X"}`, delivering key downs `x` then `y` (buffer becomes `"xy"`,
no match), and then calling `update_hotkeys({})`. -/
def c1State : EngineState :=
  update_hotkeys
    (runEvents (mkEngine [("ab".toList, "X".toList)] 3 1 false)
      [downEvent "x" 0, downEvent "y" 0])
    []

/-- C1: the claimed reachable-state invariant `|buffer| ≤ max_len` is
violated by the code. After `update_hotkeys({})` the recomputed `max_len`
is `0` but the buffer still holds both typed characters: the truncation
`self._buffer[-self._max_len:]` slices from index `-0 = 0` when
`max_len = 0` and so keeps the whole buffer. -/
theorem C1_buffer_bound_violated :
    c1State.maxLen = 0 ∧ c1State.buffer = ['x', 'y'] ∧
      ¬ c1State.buffer.length ≤ c1State.maxLen := by decide

/-- The engine of spec scenario S1: triggers `{"-hi": "Hello"}`, cooldown 0. -/
def s1Engine : EngineState := mkEngine [("-hi".toList, "Hello".toList)] 0 1 false

/-- The S1 event sequence: key downs `-`, `h`, `i`. -/
def s1Events : List KEvent := [downEvent "-" 0, downEvent "h" 0, downEvent "i" 0]

/-- C4 counterexample: on scenario S1 the engine does *not* synthesize 2
backspace chords — `_fire_locked` sends one backspace per character of the
matched trigger `"-hi"`, i.e. 3. -/
theorem C4_two_backspaces_false : ¬ totalBackspaces s1Engine s1Events = 2 := by decide

/-- C4 amended: on scenario S1 exactly `len("-hi") = 3` backspace chords are
synthesized, `"Hello"` is handed to `safe_write` (paste-or-type), and
afterwards `stats.fired == 1` and the buffer is empty. -/
theorem C4_scenario_S1 :
    totalBackspaces s1Engine s1Events = 3 ∧
    writtenTexts s1Engine s1Events = ["Hello".toList] ∧
    (runEvents s1Engine s1Events).firedCount = 1 ∧
    (runEvents s1Engine s1Events).buffer = [] := by decide

/-- C6: a config file that exists but is not well-formed JSON makes
`load_config` raise — the bare `json.load` is unguarded, and a well-formed
document that is not an object raises `AttributeError` at `data.get` — while
only a *missing* file is repaired with the defaults as claimed. -/
theorem C6_malformed_config_raises :
    (load_config .invalid).2 = .error .jsonDecodeError ∧
    (load_config (.parsed (.jstr "[]"))).2 = .error .attributeError ∧
    load_config .missing = (.parsed (.jobj DEFAULT_CONFIG), .ok DEFAULT_CONFIG) :=
  ⟨rfl, rfl, rfl⟩

/-- If `_handle_event` reports a fired pair, that pair was returned by
`_find_match_locked` on the updated buffer, the cooldown test passed, and
`last_fire` was set to the event's time (the other state knobs are
untouched). -/
theorem handle_event_fired_inv {s s' : EngineState} {ev : KEvent}
    {p : List Char × List Char} {eff : FireEffect}
    (h : handle_event s ev = (s', some p, eff)) :
    (∃ buf, find_match s.sortedTriggers buf = some p) ∧
    s.cooldown ≤ ev.time - s.lastFire ∧
    s'.lastFire = ev.time ∧ s'.cooldown = s.cooldown ∧
    s'.backendPresent = s.backendPresent := by
  unfold handle_event at h
  repeat' split at h
  all_goals try (exact absurd h (by simp))
  unfold fire_locked at h
  split at h
  · simp only [Prod.mk.injEq, Option.some.injEq] at h
    obtain ⟨hs', hp, -⟩ := h
    subst hs'
    rename_i tr out hfm hcool hb
    exact ⟨⟨_, hp ▸ hfm⟩, by omega, rfl, rfl, rfl⟩
  · exact absurd h (by simp)

/-- If `_handle_event` does not fire (and a backend is present, which is the
case whenever events are delivered at all — `start()` returns early without
one), then `last_fire` is untouched, and `cooldown` and the backend are
never touched. -/
theorem handle_event_not_fired_inv {s s' : EngineState} {ev : KEvent} {eff : FireEffect}
    (hb : s.backendPresent = true)
    (h : handle_event s ev = (s', none, eff)) :
    s'.lastFire = s.lastFire ∧ s'.cooldown = s.cooldown ∧ s'.backendPresent = true := by
  unfold handle_event at h
  repeat' split at h
  all_goals try simp only [Prod.mk.injEq] at h
  all_goals try (obtain ⟨hs', -, -⟩ := h; subst hs'; exact ⟨rfl, rfl, hb⟩)
  unfold fire_locked at h
  rw [if_pos hb] at h
  simp at h

/-- C9: the guard `if trigger and ...` in `_find_match_locked` means matching
considers only non-empty triggers: a selected match is never the empty
string even though `""` is a suffix of every buffer (so it never fires), and
filtering empty triggers out of the walked list changes nothing. -/
theorem C9_empty_trigger_ignored :
    (∀ (sorted : List (List Char × List Char)) (buffer : List Char)
        (p : List Char × List Char),
      find_match sorted buffer = some p → p.1 ≠ []) ∧
    (∀ (sorted : List (List Char × List Char)) (buffer : List Char),
      find_match sorted buffer =
        find_match (sorted.filter (fun q => !q.1.isEmpty)) buffer) ∧
    (∀ (s : EngineState) (ev : KEvent) (s' : EngineState)
        (p : List Char × List Char) (eff : FireEffect),
      handle_event s ev = (s', some p, eff) → p.1 ≠ []) := by
  have h1 : ∀ (sorted : List (List Char × List Char)) (buffer : List Char)
      (p : List Char × List Char), find_match sorted buffer = some p → p.1 ≠ [] := by
    intro sorted buffer p h hnil
    have hm := List.find?_some h
    simp [matchPred, hnil] at hm
  refine ⟨h1, ?_, ?_⟩
  · intro sorted buffer
    induction sorted with
    | nil => rfl
    | cons a t ih =>
      by_cases ha : a.1.isEmpty = true
      · rw [find_match, find_match, List.filter_cons_of_neg (by simp [ha]),
            List.find?_cons_of_neg _ (by simp [matchPred, ha])]
        exact ih
      · rw [find_match, find_match, List.filter_cons_of_pos (by simp [ha])]
        by_cases hp : matchPred buffer a = true
        · rw [List.find?_cons_of_pos _ hp, List.find?_cons_of_pos _ hp]
        · rw [List.find?_cons_of_neg _ hp, List.find?_cons_of_neg _ hp]
          exact ih
  · intro s ev s' p eff h
    obtain ⟨⟨buf, hfm⟩, -⟩ := handle_event_fired_inv h
    exact h1 _ _ _ hfm

/-- An engine whose trigger set contains the empty-string trigger alongside
`"-hi"`, after typing `-` and `h`. -/
def c9Pre : EngineState :=
  runEvents (mkEngine [([], "E".toList), ("-hi".toList, "Hello".toList)] 0 1 false)
    [downEvent "-" 0, downEvent "h" 0]

/-- Witness for C9 at a concrete firing event of an engine whose trigger set
contains the empty string. -/
theorem C9_witness : ("-hi".toList : List Char) ≠ [] :=
  C9_empty_trigger_ignored.2.2 c9Pre (downEvent "i" 0) _ _ _ rfl

/-- An event that reaches the shift-tracking branch of `_handle_event`: a
`down`/`up` event whose lowered name is one of the shift keys. -/
def isShiftEvent (ev : KEvent) : Bool :=
  decide ((ev.etype = EvType.down ∨ ev.etype = EvType.up) ∧ pyLower ev.name ∈ SHIFT_KEYS)

/-- An event that reaches the caps-lock branch of `_handle_event`: a
`caps lock` key-down. -/
def isCapsDown (ev : KEvent) : Bool :=
  decide (pyLower ev.name = "caps lock" ∧ ev.etype = EvType.down)

/-- The specified shift state after an event sequence: true iff the most
recent shift-key event was a `down` (the prior state when there was none). -/
def specShift (init : Bool) (es : List KEvent) : Bool :=
  match (es.filter isShiftEvent).getLast? with
  | some ev => decide (ev.etype = EvType.down)
  | none => init

/-- The specified caps-lock state after an event sequence: the seeded value
XOR the parity of `caps lock` down events. -/
def specCaps (init : Bool) (es : List KEvent) : Bool :=
  xor init (decide (es.countP isCapsDown % 2 = 1))

set_option maxHeartbeats 1000000 in
/-- One step of `_handle_event` updates `shift_active` exactly on the
shift-key branch, unconditionally — the enabled/suppress/empty-set gate sits
below that branch. -/
theorem handle_event_shift (s : EngineState) (ev : KEvent) :
    (handle_event s ev).1.shiftActive =
      (if isShiftEvent ev then decide (ev.etype = EvType.down) else s.shiftActive) := by
  unfold handle_event
  repeat' split
  all_goals try (unfold fire_locked; repeat' split)
  all_goals simp_all [isShiftEvent, isCapsDown, SHIFT_KEYS]

set_option maxHeartbeats 1000000 in
/-- One step of `_handle_event` flips `caps_lock` exactly on `caps lock`
downs, unconditionally. -/
theorem handle_event_caps (s : EngineState) (ev : KEvent) :
    (handle_event s ev).1.capsLock =
      (if isCapsDown ev then !s.capsLock else s.capsLock) := by
  unfold handle_event
  repeat' split
  all_goals try (unfold fire_locked; repeat' split)
  all_goals simp_all [isShiftEvent, isCapsDown, SHIFT_KEYS]

/-- Unfolding `runEvents` one event at a time. -/
theorem runEvents_cons (s : EngineState) (e : KEvent) (t : List KEvent) :
    runEvents s (e :: t) = runEvents (handle_event s e).1 t := rfl

/-- `specShift` consumes its first event into the seed. -/
theorem specShift_cons (init : Bool) (e : KEvent) (es : List KEvent) :
    specShift init (e :: es) =
      specShift (if isShiftEvent e then decide (e.etype = EvType.down) else init) es := by
  unfold specShift
  by_cases h : isShiftEvent e = true
  · rw [List.filter_cons_of_pos h, if_pos h]
    cases hf : es.filter isShiftEvent with
    | nil => rfl
    | cons b t =>
      rw [List.getLast?_cons_cons]
      cases hgl : (b :: t).getLast? with
      | none => simp at hgl
      | some x => rfl
  · rw [List.filter_cons_of_neg (by simp [h]), if_neg h]

/-- `specCaps` consumes its first event into the seed. -/
theorem specCaps_cons (init : Bool) (e : KEvent) (es : List KEvent) :
    specCaps init (e :: es) = specCaps (if isCapsDown e then !init else init) es := by
  unfold specCaps
  rw [List.countP_cons]
  by_cases h : isCapsDown e = true
  · simp only [h, if_true, if_pos]
    by_cases h2 : es.countP isCapsDown % 2 = 1
    · have h3 : ¬ (es.countP isCapsDown + 1) % 2 = 1 := by omega
      simp [h2, h3]
    · have h3 : (es.countP isCapsDown + 1) % 2 = 1 := by omega
      simp [h2, h3]
  · simp [h]

/-- C10: after any prefix of any event sequence, `shift_active` is true iff
the most recent shift-key event was a down, and `caps_lock` is its seeded
value XOR the parity of caps-lock downs — for *every* engine state,
including disabled, suppressed, or trigger-less ones, because those gates
are checked only after the modifier tracking. -/
theorem C10_shift_caps_tracked :
    ∀ (s : EngineState) (es : List KEvent),
      (runEvents s es).shiftActive = specShift s.shiftActive es ∧
      (runEvents s es).capsLock = specCaps s.capsLock es := by
  intro s es
  induction es generalizing s with
  | nil => constructor <;> simp [runEvents, specShift, specCaps]
  | cons e t ih =>
    rw [runEvents_cons, specShift_cons, specCaps_cons]
    obtain ⟨ih1, ih2⟩ := ih (handle_event s e).1
    rw [ih1, ih2, handle_event_shift, handle_event_caps]
    exact ⟨rfl, rfl⟩

/-- Strengthened cooldown invariant: with the current `last_fire` prepended,
all consecutive elements of the fire-time trace are at least `cooldown`
apart. -/
theorem fireTimes_chain_aux :
    ∀ (es : List KEvent) (s : EngineState), s.backendPresent = true →
      List.Chain' (fun t1 t2 => s.cooldown ≤ t2 - t1) (s.lastFire :: fireTimes s es) := by
  intro es
  induction es with
  | nil => intro s _; simp [fireTimes]
  | cons e t ih =>
    intro s hb
    have hev : handle_event s e =
        ((handle_event s e).1, (handle_event s e).2.1, (handle_event s e).2.2) := rfl
    cases hf : (handle_event s e).2.1 with
    | none =>
      rw [hf] at hev
      obtain ⟨hl, hcool, hbp⟩ := handle_event_not_fired_inv hb hev
      have hch := ih (handle_event s e).1 hbp
      rw [hl, hcool] at hch
      simpa [fireTimes, hf] using hch
    | some p =>
      rw [hf] at hev
      obtain ⟨-, hsep, hl, hcool, hbp⟩ := handle_event_fired_inv hev
      have hch := ih (handle_event s e).1 (hbp.trans hb)
      rw [hl, hcool] at hch
      have : List.Chain' (fun t1 t2 => s.cooldown ≤ t2 - t1)
          (s.lastFire :: e.time :: fireTimes (handle_event s e).1 t) :=
        List.Chain'.cons hsep hch
      simpa [fireTimes, hf] using this

/-- C8: an event processed with `suppress` set never fires; over any event
sequence consecutive fires are at least `cooldown` apart; and an event whose
(appended) buffer matches but arrives within `cooldown` of the previous fire
returns with the buffer keeping the appended character, `last_fire` and all
counters untouched — so the very same match fires on a later keystroke once
the cooldown has elapsed. -/
theorem C8_suppress_and_cooldown :
    (∀ (s : EngineState) (ev : KEvent), s.suppressEvents = true →
      (handle_event s ev).2.1 = none) ∧
    (∀ (s : EngineState) (es : List KEvent), s.backendPresent = true →
      List.Chain' (fun t1 t2 => s.cooldown ≤ t2 - t1) (fireTimes s es)) ∧
    (∀ (s : EngineState) (ev : KEvent) (c : Char) (m : List Char × List Char),
      ev.etype = EvType.down →
      pyLower ev.name ∉ SHIFT_KEYS →
      ¬ pyLower ev.name = "caps lock" →
      s.enabled = true → s.suppressEvents = false → s.sortedTriggers.isEmpty = false →
      ¬ pyLower ev.name = "backspace" →
      translate_key s.shiftActive s.capsLock (pyLower ev.name) = some c →
      c ∉ WHITESPACE →
      find_match s.sortedTriggers (pySliceLast s.maxLen (s.buffer ++ [c])) = some m →
      (ev.time - s.lastFire < s.cooldown →
        handle_event s ev =
          ({ s with buffer := pySliceLast s.maxLen (s.buffer ++ [c]) }, none, FireEffect.none)) ∧
      (¬ ev.time - s.lastFire < s.cooldown → s.backendPresent = true →
        (handle_event s ev).2.1 = some m)) := by
  refine ⟨?_, ?_, ?_⟩
  · intro s ev hsup
    unfold handle_event
    repeat' split
    all_goals simp_all
  · intro s es hb
    exact (fireTimes_chain_aux es s hb).tail
  · intro s ev c m h1 h2 h3 h4 h5 h6 h7 h8 h9 h10
    obtain ⟨tr, out⟩ := m
    constructor
    · intro hcd
      unfold handle_event
      simp [h1, h2, h3, h4, h5, h6, h7, h8, h9, h10, hcd]
    · intro hcd hb
      unfold handle_event fire_locked
      simp [h1, h2, h3, h4, h5, h6, h7, h8, h9, h10, hcd, hb]

/-- The engine of spec scenario S4: trigger `{"-x": "X"}`, cooldown 5. -/
def s4Engine : EngineState := mkEngine [("-x".toList, "X".toList)] 5 1 false

/-- Two complete `-x` sequences within the cooldown window, then one after
it has elapsed. -/
def s4Events : List KEvent :=
  [downEvent "-" 10, downEvent "x" 10, downEvent "-" 12, downEvent "x" 12,
   downEvent "-" 20, downEvent "x" 20]

/-- The S4 engine right after its first fire (at time 10) and a fresh `-`. -/
def c8Pre : EngineState := runEvents s4Engine [downEvent "-" 10, downEvent "x" 10, downEvent "-" 12]

/-- Witness for C8 at the concrete S4 run: the cooldown chain on its fire
times, a suppressed event not firing, and a blocked match keeping the
appended buffer. -/
theorem C8_witness :
    List.Chain' (fun t1 t2 => s4Engine.cooldown ≤ t2 - t1) (fireTimes s4Engine s4Events) ∧
    (handle_event { s4Engine with suppressEvents := true } (downEvent "x" 0)).2.1 = none ∧
    (handle_event c8Pre (downEvent "x" 12)).2.1 = none ∧
    (handle_event c8Pre (downEvent "x" 12)).1.buffer = "-x".toList :=
  ⟨C8_suppress_and_cooldown.2.1 s4Engine s4Events rfl,
   C8_suppress_and_cooldown.1 _ _ rfl,
   by
    have h := (C8_suppress_and_cooldown.2.2 c8Pre (downEvent "x" 12) 'x'
        ("-x".toList, "X".toList) rfl (by decide) (by decide) rfl rfl rfl
        (by decide) rfl (by decide) rfl).1 (by decide)
    exact ⟨by rw [h], by rw [h]; decide⟩⟩

/-- `insertByLen` inserts its element: the result is a permutation of
consing it. -/
theorem insertByLen_perm (p : List Char × List Char) (l : List (List Char × List Char)) :
    (insertByLen p l).Perm (p :: l) := by
  induction l with
  | nil => exact .refl _
  | cons q t ih =>
    rw [insertByLen]
    split
    · exact .refl _
    · exact (ih.cons q).trans (List.Perm.swap p q t)

/-- `insertByLen` preserves the descending-length ordering. -/
theorem pairwise_insertByLen {p : List Char × List Char} {l : List (List Char × List Char)}
    (h : l.Pairwise (fun a b => b.1.length ≤ a.1.length)) :
    (insertByLen p l).Pairwise (fun a b => b.1.length ≤ a.1.length) := by
  induction l with
  | nil => simp [insertByLen]
  | cons q t ih =>
    obtain ⟨hq, ht⟩ := List.pairwise_cons.mp h
    rw [insertByLen]
    split
    · rename_i hlt
      refine List.Pairwise.cons ?_ h
      intro b hb
      rcases List.mem_cons.mp hb with rfl | hb
      · omega
      · have := hq b hb; omega
    · rename_i hge
      refine List.Pairwise.cons ?_ (ih ht)
      intro b hb
      rcases List.mem_cons.mp ((insertByLen_perm p t).subset hb) with rfl | hb
      · omega
      · exact hq b hb

/-- The sorted trigger list is a permutation of the trigger dict's items. -/
theorem sortTriggers_perm (l : List (List Char × List Char)) : (sortTriggers l).Perm l := by
  suffices h : ∀ (l acc : List (List Char × List Char)),
      (l.foldl (fun acc p => insertByLen p acc) acc).Perm (acc ++ l) by
    simpa using h l []
  intro l
  induction l with
  | nil => intro acc; simp
  | cons p t ih =>
    intro acc
    rw [List.foldl_cons]
    exact (ih (insertByLen p acc)).trans
      (((insertByLen_perm p acc).append_right t).trans List.perm_middle.symm)

/-- The sorted trigger list is descending in trigger length. -/
theorem sortTriggers_sorted (l : List (List Char × List Char)) :
    (sortTriggers l).Pairwise (fun a b => b.1.length ≤ a.1.length) := by
  suffices h : ∀ (l acc : List (List Char × List Char)),
      acc.Pairwise (fun a b => b.1.length ≤ a.1.length) →
      (l.foldl (fun acc p => insertByLen p acc) acc).Pairwise
        (fun a b => b.1.length ≤ a.1.length) by
    exact h l [] (by simp)
  intro l
  induction l with
  | nil => intro acc hacc; exact hacc
  | cons p t ih => intro acc hacc; exact ih _ (pairwise_insertByLen hacc)

/-- The element `find?` returns from a `Pairwise`-ordered list is `R`-ahead
of every satisfying element. -/
theorem find?_first_of_pairwise {α : Type} {R : α → α → Prop} {pred : α → Bool}
    {l : List α} {a : α}
    (hp : l.Pairwise R) (hf : l.find? pred = some a) :
    ∀ b ∈ l, pred b = true → b = a ∨ R a b := by
  induction l with
  | nil => simp at hf
  | cons x t ih =>
    obtain ⟨hx, ht⟩ := List.pairwise_cons.mp hp
    by_cases hpx : pred x = true
    · rw [List.find?_cons_of_pos _ hpx] at hf
      obtain rfl : x = a := by injection hf
      intro b hb hpb
      rcases List.mem_cons.mp hb with rfl | hb
      · exact .inl rfl
      · exact .inr (hx b hb)
    · rw [List.find?_cons_of_neg _ hpx] at hf
      intro b hb hpb
      rcases List.mem_cons.mp hb with rfl | hb
      · exact absurd hpb hpx
      · exact ih ht hf b hb hpb

/-- In a list with distinct keys, an entry is determined by its key. -/
theorem eq_of_mem_nodup_keys {κ β : Type} {l : List (κ × β)} {p q : κ × β}
    (hnd : (l.map Prod.fst).Nodup) (hp : p ∈ l) (hq : q ∈ l) (hk : p.1 = q.1) :
    p = q := by
  induction l with
  | nil => simp at hp
  | cons a t ih =>
    rw [List.map_cons] at hnd
    obtain ⟨ha, ht⟩ := List.nodup_cons.mp hnd
    rcases List.mem_cons.mp hp with hpa | hp2
    · rcases List.mem_cons.mp hq with hqa | hq2
      · rw [hpa, hqa]
      · exfalso
        apply ha
        rw [hpa] at hk
        rw [hk]
        exact List.mem_map_of_mem Prod.fst hq2
    · rcases List.mem_cons.mp hq with hqa | hq2
      · exfalso
        apply ha
        rw [hqa] at hk
        rw [← hk]
        exact List.mem_map_of_mem Prod.fst hp2
      · exact ih ht hp2 hq2

/-- The loop guard holds for a non-empty trigger that is a suffix of the
buffer. -/
theorem matchPred_eq_true {buffer : List Char} {q : List Char × List Char}
    (hne : q.1 ≠ []) (hs : q.1 <:+ buffer) : matchPred buffer q = true := by
  simp [matchPred, hne, hs]

/-- Soundness of `_find_match_locked` over a sorted trigger list: assuming
all triggers non-empty, a returned pair belongs to the trigger dict, is a
suffix of the buffer, and its trigger is longest among all suffix triggers. -/
theorem find_match_sound {l : List (List Char × List Char)} {buffer : List Char}
    {p : List Char × List Char}
    (hne : ∀ q ∈ l, q.1 ≠ [])
    (hp : find_match (sortTriggers l) buffer = some p) :
    p ∈ l ∧ p.1 <:+ buffer ∧ ∀ q ∈ l, q.1 <:+ buffer → q.1.length ≤ p.1.length := by
  have hpred := List.find?_some hp
  have hmem : p ∈ l := (sortTriggers_perm l).subset (List.mem_of_find?_eq_some hp)
  have hpsuf : p.1 <:+ buffer := by
    simp only [matchPred, Bool.and_eq_true, List.isSuffixOf_iff_suffix] at hpred
    exact hpred.2
  refine ⟨hmem, hpsuf, ?_⟩
  intro q hq hqsuf
  have hq2 : q ∈ sortTriggers l := (sortTriggers_perm l).mem_iff.mpr hq
  rcases find?_first_of_pairwise (sortTriggers_sorted l) hp q hq2
      (matchPred_eq_true (hne q hq) hqsuf) with rfl | hle
  · exact le_refl _
  · exact hle

/-- C2: over any trigger dict with non-empty keys (the data model requires
non-empty triggers; C9 covers the empty-key degenerate case), matching
selects a longest trigger that is a suffix of the buffer, selects one
whenever one exists, equal-length suffix triggers necessarily coincide (so
the lexicographic tie-break is vacuously satisfied), and the selected pair
is a function of the dict contents and the buffer alone — any reordering of
the dict's items yields the same match. -/
theorem C2_longest_suffix_match_deterministic :
    ∀ (l : List (List Char × List Char)) (buffer : List Char),
      (∀ q ∈ l, q.1 ≠ []) →
      (∀ p, find_match (sortTriggers l) buffer = some p →
        p ∈ l ∧ p.1 <:+ buffer ∧ ∀ q ∈ l, q.1 <:+ buffer → q.1.length ≤ p.1.length) ∧
      ((∃ q ∈ l, q.1 <:+ buffer) → (find_match (sortTriggers l) buffer).isSome = true) ∧
      (∀ p q : List Char × List Char, p.1 <:+ buffer → q.1 <:+ buffer →
        p.1.length = q.1.length → p.1 = q.1) ∧
      (∀ l', l.Perm l' → (l.map Prod.fst).Nodup →
        find_match (sortTriggers l) buffer = find_match (sortTriggers l') buffer) := by
  intro l buffer hne
  have htie : ∀ p q : List Char × List Char, p.1 <:+ buffer → q.1 <:+ buffer →
      p.1.length = q.1.length → p.1 = q.1 := by
    intro p q hp hq hlen
    rcases List.suffix_or_suffix_of_suffix hp hq with h | h
    · exact h.eq_of_length hlen
    · exact (h.eq_of_length hlen.symm).symm
  refine ⟨fun p hp => find_match_sound hne hp, ?_, htie, ?_⟩
  · rintro ⟨q, hq, hqs⟩
    rw [find_match, List.find?_isSome]
    exact ⟨q, (sortTriggers_perm l).mem_iff.mpr hq, matchPred_eq_true (hne q hq) hqs⟩
  · intro l' hperm hnd
    have hne' : ∀ q ∈ l', q.1 ≠ [] := fun q hq => hne q (hperm.mem_iff.mpr hq)
    cases hl : find_match (sortTriggers l) buffer with
    | none =>
      cases hl' : find_match (sortTriggers l') buffer with
      | none => rfl
      | some p' =>
        exfalso
        have hpred := List.find?_some hl'
        have hmem : p' ∈ sortTriggers l :=
          (sortTriggers_perm l).mem_iff.mpr
            (hperm.mem_iff.mpr ((sortTriggers_perm l').subset (List.mem_of_find?_eq_some hl')))
        exact List.find?_eq_none.mp hl p' hmem hpred
    | some p =>
      obtain ⟨hpl, hpsuf, hpmax⟩ := find_match_sound hne hl
      cases hl' : find_match (sortTriggers l') buffer with
      | none =>
        exfalso
        have hpred := List.find?_some hl
        have hmem : p ∈ sortTriggers l' :=
          (sortTriggers_perm l').mem_iff.mpr (hperm.mem_iff.mp hpl)
        exact List.find?_eq_none.mp hl' p hmem hpred
      | some p' =>
        obtain ⟨hpl', hpsuf', hpmax'⟩ := find_match_sound hne' hl'
        have hpl'2 : p' ∈ l := hperm.mem_iff.mpr hpl'
        have hlen : p.1.length = p'.1.length :=
          le_antisymm (hpmax' p (hperm.mem_iff.mp hpl) hpsuf) (hpmax p' hpl'2 hpsuf')
        have hkeys : p.1 = p'.1 := htie p p' hpsuf hpsuf' hlen
        rw [eq_of_mem_nodup_keys hnd hpl hpl'2 hkeys]

/-- The triggers of spec scenario S2 as a dict in insertion order. -/
def c2List : List (List Char × List Char) :=
  [("-h".toList, "H".toList), ("-hi".toList, "Hi".toList)]

/-- The same dict with the opposite insertion order. -/
def c2ListRev : List (List Char × List Char) :=
  [("-hi".toList, "Hi".toList), ("-h".toList, "H".toList)]

/-- A buffer of which both `"-hi"` and (by containment) `"-h"`-style
shorter keys could be checked; only `"-hi"` is a suffix. -/
def c2Buffer : List Char := "x-hi".toList

/-- Witness for C2 at the S2 trigger dict: the selected match is a longest
suffix trigger, and the selection is unchanged under reordering the dict. -/
theorem C2_witness :
    (("-hi".toList, "Hi".toList) ∈ c2List ∧ "-hi".toList <:+ c2Buffer) ∧
    find_match (sortTriggers c2List) c2Buffer =
      find_match (sortTriggers c2ListRev) c2Buffer := by
  have h := C2_longest_suffix_match_deterministic c2List c2Buffer (by decide)
  exact ⟨⟨(h.1 ("-hi".toList, "Hi".toList) rfl).1, (h.1 ("-hi".toList, "Hi".toList) rfl).2.1⟩,
    h.2.2.2 c2ListRev (by decide) (by decide)⟩

/-- Looking a key up in a key-preserving map of an association list finds
the image of the first entry with that key. -/
theorem lookup_map_pair {β γ : Type} (g : String × β → γ) (base : List (String × β)) (k : String) :
    (base.map (fun p => (p.1, g p))).lookup k = (base.find? (fun p => k == p.1)).map g := by
  induction base with
  | nil => rfl
  | cons a t ih =>
    by_cases hk : (k == a.1) = true
    · simp [List.lookup, List.find?, hk]
    · simp [List.lookup, List.find?, hk, ih]

/-- With distinct keys, the first entry found by key for a member of the
list is that member itself. -/
theorem find?_key_of_nodup {β : Type} {base : List (String × β)} {p : String × β}
    (hnd : (base.map Prod.fst).Nodup) (hp : p ∈ base) :
    base.find? (fun q => p.1 == q.1) = some p := by
  induction base with
  | nil => simp at hp
  | cons a t ih =>
    rw [List.map_cons] at hnd
    obtain ⟨ha, ht⟩ := List.nodup_cons.mp hnd
    rcases List.mem_cons.mp hp with hpa | hp2
    · rw [hpa]
      exact List.find?_cons_of_pos _ (by simp)
    · have hne : ¬ (p.1 == a.1) = true := by
        intro hbeq
        apply ha
        rw [← beq_iff_eq.mp hbeq]
        exact List.mem_map_of_mem Prod.fst hp2
      have hstep : List.find? (fun q => p.1 == q.1) (a :: t) =
          List.find? (fun q => p.1 == q.1) t :=
        List.find?_cons_of_neg _ hne
      rw [hstep]
      exact ih ht hp2

/-- `base.copy()` followed by `update` with a dict over exactly the same
keys is just that dict (the shape of `load_config`'s merge). -/
theorem dictUpdate_self_keys {β : Type} (base : List (String × β)) (g : String × β → β)
    (hnd : (base.map Prod.fst).Nodup) :
    dictUpdate base (base.map (fun p => (p.1, g p))) = base.map (fun p => (p.1, g p)) := by
  unfold dictUpdate
  have hmap : base.map (fun p => (p.1, ((base.map (fun q => (q.1, g q))).lookup p.1).getD p.2)) =
      base.map (fun p => (p.1, g p)) := by
    apply List.map_congr_left
    intro p hp
    rw [lookup_map_pair, find?_key_of_nodup hnd hp]
    rfl
  have hfil : ((base.map (fun q => (q.1, g q))).filter
      (fun p => (base.lookup p.1).isNone)) = [] := by
    rw [List.filter_eq_nil_iff]
    intro p hp
    obtain ⟨q, hq, rfl⟩ := List.mem_map.mp hp
    simp only [Option.isNone_iff_eq_none]
    intro hlk
    have hs : (base.lookup q.1).isSome = true :=
      List.lookup_isSome_iff.mpr ⟨q, hq, by simp⟩
    rw [hlk] at hs
    simp at hs
  rw [hmap, hfil, List.append_nil]

/-- `lookup` is the second component of the first entry found by key. -/
theorem lookup_eq_find?_map {β : Type} (base : List (String × β)) (k : String) :
    base.lookup k = (base.find? (fun p => k == p.1)).map Prod.snd := by
  induction base with
  | nil => rfl
  | cons a t ih =>
    by_cases hk : (k == a.1) = true
    · simp [List.lookup, List.find?, hk]
    · simp [List.lookup, List.find?, hk, ih]

/-- Looking up through a filter whose predicate depends only on the key. -/
theorem lookup_filter_key {β : Type} (l : List (String × β)) (f : String → Bool) (k : String) :
    (l.filter (fun p => f p.1)).lookup k = if f k = true then l.lookup k else none := by
  induction l with
  | nil => simp
  | cons a t ih =>
    rw [List.filter_cons]
    by_cases hf : f a.1 = true
    · rw [if_pos hf]
      by_cases hk : (k == a.1) = true
      · have hka : k = a.1 := beq_iff_eq.mp hk
        simp [List.lookup, hk, hka, hf]
      · simp [List.lookup, hk, ih]
    · rw [if_neg hf]
      rw [ih]
      by_cases hfk : f k = true
      · have hk : (k == a.1) = false := by
          rcases hbeq : k == a.1 with _ | _
          · rfl
          · exact absurd (beq_iff_eq.mp hbeq ▸ hfk) hf
        simp [hfk, List.lookup, hk]
      · simp [hfk]

/-- `dict.update` as seen through `lookup`: the updating dict wins on its
keys, the base fills the rest. -/
theorem dictUpdate_lookup {β : Type} (base upd : List (String × β)) (k : String) :
    (dictUpdate base upd).lookup k =
      match base.lookup k with
      | some dv => some ((upd.lookup k).getD dv)
      | none => upd.lookup k := by
  unfold dictUpdate
  rw [List.lookup_append, lookup_map_pair (fun p => (upd.lookup p.1).getD p.2) base k,
      lookup_filter_key upd (fun k2 => (base.lookup k2).isNone) k,
      lookup_eq_find?_map base k]
  cases hf : base.find? (fun p => k == p.1) with
  | some p =>
    have hpk : (k == p.1) = true := @List.find?_some _ (fun q => k == q.1) p base hf
    have hk : k = p.1 := beq_iff_eq.mp hpk
    simp [hk]
  | none =>
    simp

/-- `load_config` on any stored JSON object returns exactly the recognized
(default) keys, taking the stored value where present — unknown stored keys
do not survive the merge. -/
theorem load_config_obj (data : List (String × JValue)) :
    load_config (.parsed (.jobj data)) =
      (.parsed (.jobj data),
       .ok (DEFAULT_CONFIG.map (fun p => (p.1, (data.lookup p.1).getD p.2)))) := by
  have h1 : dictUpdate DEFAULT_CONFIG
      (DEFAULT_CONFIG.map (fun p => (p.1, (data.lookup p.1).getD p.2))) =
      DEFAULT_CONFIG.map (fun p => (p.1, (data.lookup p.1).getD p.2)) :=
    dictUpdate_self_keys DEFAULT_CONFIG _ (by decide)
  have h2 : ((DEFAULT_CONFIG.map
      (fun p => (p.1, (data.lookup p.1).getD p.2))).lookup "log_file").isSome = true := by
    rw [lookup_map_pair]
    rfl
  show (PyFile.parsed (.jobj data), Except.ok (dictSetdefault (dictUpdate DEFAULT_CONFIG
      (DEFAULT_CONFIG.map (fun p => (p.1, (data.lookup p.1).getD p.2)))) "log_file"
      (.jstr DEFAULT_LOG_FILE))) = _
  rw [h1]
  unfold dictSetdefault
  rw [if_pos h2]

/-- The stored config of the C3 counterexample: a single unknown key. -/
def c3Stored : List (String × JValue) := [("unknown_option", .jint 1)]

/-- What `load_config` returns for `c3Stored`. -/
def c3Loaded : List (String × JValue) :=
  DEFAULT_CONFIG.map (fun p => (p.1, (c3Stored.lookup p.1).getD p.2))

/-- C3 counterexample: a stored unknown key is *not* preserved on load —
the merge comprehension in `load_config` iterates only the recognized
(default) keys, so the returned config lacks `"unknown_option"`. -/
theorem C3_unknown_keys_dropped_on_load :
    (load_config (.parsed (.jobj c3Stored))).2 = .ok c3Loaded ∧
    "unknown_option" ∉ c3Loaded.map Prod.fst := by
  constructor
  · rw [load_config_obj]
    rfl
  · decide

/-- C3 amended: `load_config` returns exactly the recognized option set —
each default key mapped to the stored value when present, else the default —
and drops unknown stored keys; `save_config`, by contrast, merges the given
config over the defaults, so unknown keys passed to it are written out and
missing recognized keys are filled from defaults. -/
theorem C3_config_merge :
    (∀ data : List (String × JValue),
      load_config (.parsed (.jobj data)) =
        (.parsed (.jobj data),
         .ok (DEFAULT_CONFIG.map (fun p => (p.1, (data.lookup p.1).getD p.2))))) ∧
    (∀ (config : List (String × JValue)) (k : String),
      ∃ written, save_config config = .parsed (.jobj written) ∧
        (∀ v, config.lookup k = some v → written.lookup k = some v) ∧
        (config.lookup k = none → written.lookup k = DEFAULT_CONFIG.lookup k)) := by
  refine ⟨load_config_obj, ?_⟩
  intro config k
  refine ⟨dictUpdate DEFAULT_CONFIG config, rfl, ?_, ?_⟩
  · intro v hv
    rw [dictUpdate_lookup]
    cases hb : DEFAULT_CONFIG.lookup k with
    | some dv => simp [hv]
    | none => simp [hv]
  · intro hnone
    rw [dictUpdate_lookup]
    cases hb : DEFAULT_CONFIG.lookup k with
    | some dv => simp [hnone]
    | none => simp [hnone]

/-- Witness for C3's amended claim at concrete configs: a stored recognized
key survives the load merge, and an unknown key handed to `save_config` is
re-emitted. -/
theorem C3_witness :
    load_config (.parsed (.jobj [("cooldown", JValue.jint 1)])) =
      (.parsed (.jobj [("cooldown", JValue.jint 1)]),
       .ok (DEFAULT_CONFIG.map (fun p =>
         (p.1, ((([(("cooldown" : String), JValue.jint 1)]).lookup p.1)).getD p.2)))) ∧
    ∃ written, save_config [("unknown_option", JValue.jint 1)] = .parsed (.jobj written) ∧
      written.lookup "unknown_option" = some (JValue.jint 1) := by
  refine ⟨C3_config_merge.1 _, ?_⟩
  obtain ⟨written, hw, hsome, -⟩ :=
    C3_config_merge.2 [("unknown_option", JValue.jint 1)] "unknown_option"
  exact ⟨written, hw, hsome _ rfl⟩

/-- The sanitation loop of `load_profiles` undoes the JSON encoding
`save_profiles` applies to a profile map (inner values are strings, so the
`str` coercion is the identity on them). -/
theorem sanitize_encode (profiles : List (String × List (String × String))) :
    sanitizeProfiles (profiles.map (fun p =>
      (p.1, JValue.jobj (p.2.map (fun q => (q.1, JValue.jstr q.2)))))) = profiles := by
  induction profiles with
  | nil => rfl
  | cons a t ih =>
    rw [List.map_cons]
    show (a.1, (a.2.map (fun q => (q.1, JValue.jstr q.2))).map (fun q => (q.1, pyStr q.2))) ::
        sanitizeProfiles (t.map (fun p =>
          (p.1, JValue.jobj (p.2.map (fun q => (q.1, JValue.jstr q.2)))))) = a :: t
    rw [ih, List.map_map]
    congr 1
    · show (a.1, a.2.map (fun q => (q.1, q.2))) = a
      rw [show a.2.map (fun q => (q.1, q.2)) = a.2 from by simp]

/-- Reduction of `load_profiles` on a parsed, unencrypted file. -/
theorem load_profiles_plain {v : JValue} (pr : StoragePrims) (salt nonce : List Nat)
    (pass : Option String) (hm : markedEncrypted v = false) :
    load_profiles pr salt nonce pass (.parsed v) =
      (save_profiles pr salt nonce
        (currentFixOf v (mainFix (sanitizeProfiles (profilesRawOf v))))
        (mainFix (sanitizeProfiles (profilesRawOf v))) none,
       .ok (currentFixOf v (mainFix (sanitizeProfiles (profilesRawOf v))),
            mainFix (sanitizeProfiles (profilesRawOf v)))) := by
  simp only [load_profiles, hm]
  simp

/-- Reduction of `load_profiles` on a parsed, encrypted file whose payload
decrypts successfully. -/
theorem load_profiles_enc {d : List (String × JValue)} {v2 : JValue}
    (pr : StoragePrims) (salt nonce : List Nat) (pass : Option String)
    (hm : markedEncrypted (.jobj d) = true) (hpt : passTruthy pass = true)
    (hd : decrypt_payload pr d (pass.getD "") = .ok v2) :
    load_profiles pr salt nonce pass (.parsed (.jobj d)) =
      (save_profiles pr salt nonce
        (currentFixOf v2 (mainFix (sanitizeProfiles (profilesRawOf v2))))
        (mainFix (sanitizeProfiles (profilesRawOf v2))) pass,
       .ok (currentFixOf v2 (mainFix (sanitizeProfiles (profilesRawOf v2))),
            mainFix (sanitizeProfiles (profilesRawOf v2)))) := by
  simp only [load_profiles, hm, hpt, hd]
  simp

/-- `_decrypt_payload` inverts `_encrypt_payload` whenever the abstracted
library primitives (base64, AES-GCM, UTF-8, JSON) invert each other at the
values in question — which the real libraries guarantee. -/
theorem decrypt_encrypt_payload {pr : StoragePrims} {salt nonce : List Nat}
    {payload : JValue} {passStr : String}
    (h1 : pr.b64decode (pr.b64encode salt) = some salt)
    (h2 : pr.b64decode (pr.b64encode nonce) = some nonce)
    (h3 : pr.b64decode (pr.b64encode (pr.aeadEncrypt (pr.deriveKey passStr salt) nonce
        (pr.utf8Encode (pr.jsonDumps payload)))) =
      some (pr.aeadEncrypt (pr.deriveKey passStr salt) nonce
        (pr.utf8Encode (pr.jsonDumps payload))))
    (h4 : pr.aeadDecrypt (pr.deriveKey passStr salt) nonce
        (pr.aeadEncrypt (pr.deriveKey passStr salt) nonce
          (pr.utf8Encode (pr.jsonDumps payload))) =
      some (pr.utf8Encode (pr.jsonDumps payload)))
    (h5 : pr.utf8Decode (pr.utf8Encode (pr.jsonDumps payload)) =
      some (pr.jsonDumps payload))
    (h6 : pr.jsonLoads (pr.jsonDumps payload) = some payload) :
    decrypt_payload pr
      [("encrypted", .jbool true), ("version", .jint 1),
       ("salt", .jstr (pr.b64encode salt)), ("nonce", .jstr (pr.b64encode nonce)),
       ("data", .jstr (pr.b64encode (pr.aeadEncrypt (pr.deriveKey passStr salt) nonce
         (pr.utf8Encode (pr.jsonDumps payload)))))] passStr = .ok payload := by
  simp only [decrypt_payload, getBytesField, pyStr, pyEqInt, List.lookup]
  simp [h1, h2, h3, h4, h5, h6]

/-- C5 amended: a `save_profiles` → `load_profiles` round trip with the same
passphrase (encrypted or not) returns the saved profile map with the default
profile `"main"` appended as empty when it was absent, and the saved
current-profile pointer exactly when it names a saved (or repaired) profile,
else reset to `"main"`. When `"main"` is among the saved profiles and the
pointer names a saved profile — the invariants the store itself maintains —
this is exactly the claimed round trip. -/
theorem C5_saveload_roundtrip :
    ∀ (pr : StoragePrims) (salt nonce salt2 nonce2 : List Nat) (current : String)
      (profiles : List (String × List (String × String))) (pass : Option String),
      (passTruthy pass = true →
        pr.b64decode (pr.b64encode salt) = some salt ∧
        pr.b64decode (pr.b64encode nonce) = some nonce ∧
        pr.b64decode (pr.b64encode (pr.aeadEncrypt (pr.deriveKey (pass.getD "") salt) nonce
            (pr.utf8Encode (pr.jsonDumps (profilesToJson current profiles))))) =
          some (pr.aeadEncrypt (pr.deriveKey (pass.getD "") salt) nonce
            (pr.utf8Encode (pr.jsonDumps (profilesToJson current profiles)))) ∧
        pr.aeadDecrypt (pr.deriveKey (pass.getD "") salt) nonce
            (pr.aeadEncrypt (pr.deriveKey (pass.getD "") salt) nonce
              (pr.utf8Encode (pr.jsonDumps (profilesToJson current profiles)))) =
          some (pr.utf8Encode (pr.jsonDumps (profilesToJson current profiles))) ∧
        pr.utf8Decode (pr.utf8Encode (pr.jsonDumps (profilesToJson current profiles))) =
          some (pr.jsonDumps (profilesToJson current profiles)) ∧
        pr.jsonLoads (pr.jsonDumps (profilesToJson current profiles)) =
          some (profilesToJson current profiles)) →
      (load_profiles pr salt2 nonce2 pass
          (save_profiles pr salt nonce current profiles pass)).2 =
        .ok (currentFix current (mainFix profiles), mainFix profiles) := by
  intro pr salt nonce salt2 nonce2 current profiles pass hcrypto
  have hraw : sanitizeProfiles (profilesRawOf (profilesToJson current profiles)) = profiles := by
    show sanitizeProfiles (profiles.map (fun p =>
      (p.1, JValue.jobj (p.2.map (fun q => (q.1, JValue.jstr q.2)))))) = profiles
    exact sanitize_encode profiles
  have hfix : currentFixOf (profilesToJson current profiles) (mainFix profiles) =
      currentFix current (mainFix profiles) := rfl
  by_cases hpt : passTruthy pass = true
  · obtain ⟨h1, h2, h3, h4, h5, h6⟩ := hcrypto hpt
    rw [show save_profiles pr salt nonce current profiles pass =
        .parsed (encrypt_payload pr salt nonce (profilesToJson current profiles) (pass.getD ""))
      from by unfold save_profiles; rw [if_pos hpt]]
    rw [show (PyFile.parsed (encrypt_payload pr salt nonce
          (profilesToJson current profiles) (pass.getD ""))) =
        .parsed (.jobj [("encrypted", .jbool true), ("version", .jint 1),
          ("salt", .jstr (pr.b64encode salt)), ("nonce", .jstr (pr.b64encode nonce)),
          ("data", .jstr (pr.b64encode (pr.aeadEncrypt (pr.deriveKey (pass.getD "") salt) nonce
            (pr.utf8Encode (pr.jsonDumps (profilesToJson current profiles))))))]) from rfl]
    rw [load_profiles_enc pr salt2 nonce2 pass (by rfl) hpt
      (decrypt_encrypt_payload h1 h2 h3 h4 h5 h6)]
    rw [hraw, hfix]
  · rw [show save_profiles pr salt nonce current profiles pass =
        .parsed (profilesToJson current profiles)
      from by unfold save_profiles; rw [if_neg hpt]]
    rw [load_profiles_plain pr salt2 nonce2 pass (by rfl)]
    rw [hraw, hfix]

/-- Inert primitives for counterexamples whose runs never reach the
encryption path. -/
def trivPrims : StoragePrims :=
  { deriveKey := fun _ _ => []
    aeadEncrypt := fun _ _ pt => pt
    aeadDecrypt := fun _ _ ct => some ct
    b64encode := fun _ => ""
    b64decode := fun _ => none
    jsonDumps := fun _ => ""
    utf8Encode := fun _ => []
    utf8Decode := fun _ => none
    jsonLoads := fun _ => none }

/-- The load-after-save result of the C5 counterexample: the profile map
`{"work": {}}` (no `"main"`) saved under pointer `"work"`, plaintext. -/
def c5Result : Except PyErr (String × List (String × List (String × String))) :=
  (load_profiles trivPrims [] [] none
    (save_profiles trivPrims [] [] "work" [("work", [])] none)).2

/-- C5 counterexample: the round trip does not return the saved map — load
repairs the store by re-creating the default profile `"main"`, so the
returned map gains an entry the saved map did not have. -/
theorem C5_not_equal_roundtrip :
    c5Result = .ok ("work", [("work", []), ("main", [])]) ∧
    ¬ c5Result = .ok ("work", [("work", [])]) := by
  refine ⟨rfl, ?_⟩
  intro h
  rw [show c5Result = .ok ("work", [("work", []), ("main", [])]) from rfl] at h
  simp at h

/-- Toy but honestly-inverting primitives for the C5 witness (bytes are
small, so the character-codec round trip holds definitionally). -/
def c5Toy : StoragePrims :=
  { deriveKey := fun pass salt => (pass.data.map Char.toNat) ++ salt
    aeadEncrypt := fun _ _ pt => pt
    aeadDecrypt := fun _ _ ct => some ct
    b64encode := fun bs => { data := bs.map Char.ofNat }
    b64decode := fun s => some (s.data.map Char.toNat)
    jsonDumps := fun _ => "payload"
    utf8Encode := fun s => s.data.map Char.toNat
    utf8Decode := fun bs => some { data := bs.map Char.ofNat }
    jsonLoads := fun s =>
      if s = "payload" then some (profilesToJson "alt" [("alt", [("-g", "go")])]) else none }

/-- Witness for C5's amended claim: an encrypted round trip at a concrete
store (whose map lacks `"main"`), with each crypto-inversion hypothesis
discharged by evaluation. -/
theorem C5_witness :
    (load_profiles c5Toy [7] [8] (some "pw")
        (save_profiles c5Toy [1] [2] "alt" [("alt", [("-g", "go")])] (some "pw"))).2 =
      .ok ("alt", [("alt", [("-g", "go")]), ("main", [])]) :=
  C5_saveload_roundtrip c5Toy [1] [2] [7] [8] "alt" [("alt", [("-g", "go")])] (some "pw")
    (fun _ => ⟨rfl, rfl, rfl, rfl, rfl, rfl⟩)

/-- Whether an exception value is a `ProfilesEncryptionError`. -/
def isPEEerr : PyErr → Bool
  | .profilesEncryptionError _ => true
  | _ => false

/-- `isPEE` on a raised exception does not depend on the result type. -/
theorem isPEE_error_eq {α : Type} (e : PyErr) :
    isPEE (show Except PyErr α from .error e) = isPEEerr e := by
  cases e <;> rfl

/-- C7 amended: `load_profiles` raises `ProfilesEncryptionError` exactly
when the parsed file is marked encrypted and either the passphrase is
missing/empty or `_decrypt_payload` itself raises one (wrong version,
missing or malformed fields, invalid tag, or plaintext that decodes as
UTF-8 but is not valid JSON — a plaintext that is not valid UTF-8 instead
propagates a `UnicodeDecodeError`); and whenever loading raises anything,
the on-disk profiles file is left unchanged. -/
theorem C7_pee_iff :
    ∀ (pr : StoragePrims) (salt nonce : List Nat) (pass : Option String) (v : JValue),
      (isPEE (load_profiles pr salt nonce pass (.parsed v)).2 = true ↔
        (markedEncrypted v = true ∧
          (passTruthy pass = false ∨
            ∃ d, v = .jobj d ∧ isPEE (decrypt_payload pr d (pass.getD "")) = true))) ∧
      (∀ e, (load_profiles pr salt nonce pass (.parsed v)).2 = .error e →
        (load_profiles pr salt nonce pass (.parsed v)).1 = .parsed v) := by
  intro pr salt nonce pass v
  cases hm : markedEncrypted v with
  | false =>
    rw [load_profiles_plain pr salt nonce pass hm]
    constructor
    · simp [isPEE, hm]
    · intro e he
      simp at he
  | true =>
    cases v
    case jobj d =>
      by_cases hpt : passTruthy pass = true
      · cases hd : decrypt_payload pr d (pass.getD "") with
        | ok v2 =>
          rw [load_profiles_enc pr salt nonce pass hm hpt hd]
          constructor
          · constructor
            · intro hfalse
              exact absurd hfalse (by simp [isPEE])
            · rintro ⟨-, hcase⟩
              rcases hcase with hpf | ⟨d2, hd2, hpee⟩
              · rw [hpf] at hpt
                exact absurd hpt (by simp)
              · injection hd2 with hdd
                rw [← hdd, hd] at hpee
                exact absurd hpee (by simp [isPEE])
          · intro e he
            simp at he
        | error e0 =>
          have hres : load_profiles pr salt nonce pass (.parsed (.jobj d)) =
              (.parsed (.jobj d), .error e0) := by
            simp only [load_profiles, hm, hpt, hd]
            simp
          have h2 : (load_profiles pr salt nonce pass (.parsed (.jobj d))).2 = .error e0 := by
            rw [hres]
          have h1 : (load_profiles pr salt nonce pass (.parsed (.jobj d))).1 = .parsed (.jobj d) := by
            rw [hres]
          rw [h1, h2]
          constructor
          · constructor
            · intro hp
              rw [isPEE_error_eq] at hp
              refine ⟨rfl, .inr ⟨d, rfl, ?_⟩⟩
              rw [hd, isPEE_error_eq]
              exact hp
            · rintro ⟨-, hcase⟩
              rcases hcase with hpf | ⟨d2, hd2, hpee⟩
              · rw [hpf] at hpt
                exact absurd hpt (by simp)
              · injection hd2 with hdd
                rw [← hdd, hd, isPEE_error_eq] at hpee
                rw [isPEE_error_eq]
                exact hpee
          · intro e2 he2
            rfl
      · have hres : load_profiles pr salt nonce pass (.parsed (.jobj d)) =
            (.parsed (.jobj d),
             .error (.profilesEncryptionError "Profiles are encrypted and require a passphrase.")) := by
          simp only [load_profiles, hm]
          simp [hpt]
        have h2 : (load_profiles pr salt nonce pass (.parsed (.jobj d))).2 =
            .error (.profilesEncryptionError "Profiles are encrypted and require a passphrase.") := by
          rw [hres]
        have h1 : (load_profiles pr salt nonce pass (.parsed (.jobj d))).1 =
            .parsed (.jobj d) := by
          rw [hres]
        rw [h1, h2]
        constructor
        · constructor
          · intro _
            refine ⟨rfl, .inl ?_⟩
            cases hpv : passTruthy pass
            · rfl
            · exact absurd hpv hpt
          · intro _
            rfl
        · intro e he
          rfl
    all_goals simp [markedEncrypted] at hm
/-- Primitives for the C7 counterexample: base64 decodes, the tag verifies
(an attacker can craft an authentic ciphertext for a known passphrase), but
the decrypted plaintext is not valid UTF-8. -/
def c7Prims : StoragePrims :=
  { deriveKey := fun _ _ => []
    aeadEncrypt := fun _ _ pt => pt
    aeadDecrypt := fun _ _ ct => some ct
    b64encode := fun bs => { data := bs.map Char.ofNat }
    b64decode := fun s => some (s.data.map Char.toNat)
    jsonDumps := fun _ => ""
    utf8Encode := fun s => s.data.map Char.toNat
    utf8Decode := fun _ => none
    jsonLoads := fun _ => none }

/-- A well-formed encrypted profiles envelope. -/
def c7File : JValue :=
  .jobj [("encrypted", .jbool true), ("version", .jint 1),
         ("salt", .jstr "AA"), ("nonce", .jstr "BB"), ("data", .jstr "CC")]

/-- C7 counterexample: an encrypted profiles file loaded *with* a
passphrase, whose decryption chain fails at the plaintext (not JSON — not
even UTF-8), makes `load_profiles` propagate a `UnicodeDecodeError` — not
the `ProfilesEncryptionError` the claim promises for every decryption
failure, because `json.loads(plaintext.decode("utf-8"))` is guarded only
against `JSONDecodeError`. -/
theorem C7_unicode_error_not_pee :
    (load_profiles c7Prims [] [] (some "pw") (.parsed c7File)).2 =
      .error .unicodeDecodeError ∧
    isPEEerr .unicodeDecodeError = false ∧
    markedEncrypted c7File = true ∧
    passTruthy (some "pw") = true :=
  ⟨rfl, rfl, rfl, rfl⟩

/-- Witness for C7's amended claim: loading an encrypted file without a
passphrase raises a `ProfilesEncryptionError` and leaves the file as it
was. -/
theorem C7_witness :
    isPEE (load_profiles trivPrims [] [] none (.parsed c7File)).2 = true ∧
    (load_profiles trivPrims [] [] none (.parsed c7File)).1 = .parsed c7File :=
  ⟨(C7_pee_iff trivPrims [] [] none c7File).1.mpr ⟨rfl, .inl rfl⟩,
   (C7_pee_iff trivPrims [] [] none c7File).2
     (.profilesEncryptionError "Profiles are encrypted and require a passphrase.") rfl⟩
